import Mathlib

/-!
Shallow embedding of `src/function_app.py` (ssa-scraper-backend).

The Python source has two units:
* `parse_age_string` (lines 13-28): regex-based normalization of textual
  ages such as "62 and 4 months" or "70b" into a number.
* `scrape` (lines 32-155): request validation, a Playwright form-driving
  sequence, BeautifulSoup table location, and row extraction.

Numbers that Python represents as `float` are modelled as exact rationals
(`ℚ`); the claims under study are structural (which value is produced,
signs, orderings) and do not depend on IEEE rounding.
-/

namespace SsaScraper

/-- Python `str.strip()` on a character list: drop whitespace at both ends. -/
def listTrim (l : List Char) : List Char :=
  ((l.dropWhile Char.isWhitespace).reverse.dropWhile Char.isWhitespace).reverse

/-- Value of a (possibly empty) list of decimal digit characters, most
significant first.  An empty list has value 0, as in `float("7.")`. -/
def digitsToNat (l : List Char) : Nat :=
  l.foldl (fun n c => 10 * n + (c.toNat - 48)) 0

/-- Exact value of a token matched by the regex `\d+\.?\d*`: an integer part,
an optional dot, and an optional fractional part.  This is what Python's
`float(parts[i])` computes on such a token (modelled exactly in `ℚ`). -/
def decimalToRat (l : List Char) : ℚ :=
  let ip := l.takeWhile (fun c => c ≠ '.')
  let fp := (l.dropWhile (fun c => c ≠ '.')).drop 1
  (digitsToNat ip : ℚ) + (digitsToNat fp : ℚ) / (10 : ℚ) ^ fp.length

/-- Scanner state for `re.findall(r'(\d+\.?\d*)', s)`: outside a match,
inside the integer-digit run, or past the optional dot. -/
inductive ScanState : Type
  | idle : ScanState
  | intPart (cur : List Char) : ScanState
  | fracPart (cur : List Char) : ScanState
deriving DecidableEq

/-- One character of the left-to-right scan for `\d+\.?\d*`.  The pattern is
greedy, so a match is a maximal digit run, one optional dot, then a maximal
digit run; a character that cannot extend the current match ends it. -/
def scanStep (acc : ScanState × List (List Char)) (c : Char) :
    ScanState × List (List Char) :=
  match acc with
  | (ScanState.idle, out) =>
      if c.isDigit then (ScanState.intPart [c], out) else (ScanState.idle, out)
  | (ScanState.intPart cur, out) =>
      if c.isDigit then (ScanState.intPart (cur ++ [c]), out)
      else if c = '.' then (ScanState.fracPart (cur ++ [c]), out)
      else (ScanState.idle, out ++ [cur])
  | (ScanState.fracPart cur, out) =>
      if c.isDigit then (ScanState.fracPart (cur ++ [c]), out)
      else (ScanState.idle, out ++ [cur])

/-- Flush the match still open when the input ends. -/
def scanFlush : ScanState → List (List Char)
  | ScanState.idle => []
  | ScanState.intPart cur => [cur]
  | ScanState.fracPart cur => [cur]

/-- `re.findall(r'(\d+\.?\d*)', s)`: all non-overlapping leftmost-greedy
matches of an unsigned decimal pattern, in order of appearance. -/
def findNumericTokens (l : List Char) : List (List Char) :=
  let r := l.foldl scanStep (ScanState.idle, [])
  r.2 ++ scanFlush r.1

/-- Line 19: `re.sub(r'[a-zA-Z]', '', age_str).strip()` — remove ASCII
letters, then strip surrounding whitespace. -/
def cleanedAgeChars (s : String) : List Char :=
  listTrim (s.toList.filter (fun c => ¬ c.isAlpha))

/-- The numeric substrings `parse_age_string` extracts (line 22). -/
def numericTokens (s : String) : List (List Char) :=
  findNumericTokens (cleanedAgeChars s)

/-- `parse_age_string` (lines 13-28): two tokens mean "X and Y months",
one token is a plain value, anything else yields `None`. -/
def parse_age_string (s : String) : Option ℚ :=
  match numericTokens s with
  | [a, b] => some (decimalToRat a + decimalToRat b / 12)
  | [a] => some (decimalToRat a)
  | _ => Option.none

/-- Python `int(s)` on a string: optional surrounding whitespace, an optional
sign, then one or more decimal digits.  Any other shape raises `ValueError`,
modelled as `Option.none`.  (Digit-group underscores are outside the model;
no input in this development uses them.) -/
def pyIntParse (s : String) : Option Int :=
  let l := listTrim s.toList
  let sgn : Int := match l with
    | '-' :: _ => -1
    | _ => 1
  let l2 : List Char := match l with
    | '-' :: r => r
    | '+' :: r => r
    | _ => l
  if l2 ≠ [] ∧ l2.all Char.isDigit then some (sgn * (digitsToNat l2 : Int))
  else Option.none

/-- Python `float(s)` restricted to finite plain decimal notation: optional
whitespace and sign, digits with an optional dot (at least one digit), and an
optional exponent.  `inf`/`nan` are not representable in `ℚ` and lie outside
the model; no input in this development uses them.  A shape `float` rejects
(raising `ValueError`) is `Option.none`. -/
def pyFloat (s : String) : Option ℚ :=
  let l := listTrim s.toList
  let sgn : ℚ := match l with
    | '-' :: _ => -1
    | _ => 1
  let l1 : List Char := match l with
    | '-' :: r => r
    | '+' :: r => r
    | _ => l
  let ip := l1.takeWhile Char.isDigit
  let r1 := l1.dropWhile Char.isDigit
  let fp : List Char := match r1 with
    | '.' :: r => r.takeWhile Char.isDigit
    | _ => []
  let r2 : List Char := match r1 with
    | '.' :: r => r.dropWhile Char.isDigit
    | _ => r1
  if ip = [] ∧ fp = [] then Option.none
  else
    let mant : ℚ := (digitsToNat ip : ℚ) + (digitsToNat fp : ℚ) / (10 : ℚ) ^ fp.length
    match r2 with
    | [] => some (sgn * mant)
    | c :: r3 =>
      if c = 'e' ∨ c = 'E' then
        let esgn : Int := match r3 with
          | '-' :: _ => -1
          | _ => 1
        let r4 : List Char := match r3 with
          | '-' :: r => r
          | '+' :: r => r
          | _ => r3
        if r4 ≠ [] ∧ r4.all Char.isDigit then
          some (sgn * mant * (10 : ℚ) ^ (esgn * (digitsToNat r4 : Int)))
        else Option.none
      else Option.none

/-- One row of the structured output (lines 127-131 of the source). -/
structure LifeExpectancyPoint : Type where
  atAge : ℚ
  additionalLE : ℚ
  totalLE : ℚ
deriving DecidableEq

/-- The structured result (line 117): the first parsed row plus the rest. -/
structure LifeExpectancyResult : Type where
  initial : LifeExpectancyPoint
  future : List LifeExpectancyPoint
deriving DecidableEq

/-- The two `ValueError`s the extraction loop can raise: `float()` on a
life-expectancy cell (lines 129-130), or the missing-initial check
(lines 138-139).  Both are caught by the handler at line 148. -/
inductive ExtractionError : Type
  | badNumber : ExtractionError
  | missingInitial : ExtractionError
deriving DecidableEq

/-- The loop of lines 119-136 followed by the check of lines 138-139.
State: the rows still to visit, the `initial` slot (`data["initial"]`,
`Option.none` while `is_first_row` is still true) and the `future` list.
A row is examined only if it has exactly three cells; an unparsable age
skips the row (`continue`); a life-expectancy cell `float()` rejects
aborts everything with `ExtractionError.badNumber`. -/
def processRows : List (List String) → Option LifeExpectancyPoint →
    List LifeExpectancyPoint → Except ExtractionError LifeExpectancyResult
  | [], Option.none, _ => Except.error ExtractionError.missingInitial
  | [], some ini, fut => Except.ok ⟨ini, fut⟩
  | row :: rest, ini, fut =>
    match row with
    | [ageStr, addStr, totStr] =>
      match parse_age_string ageStr with
      | Option.none => processRows rest ini fut
      | some pa =>
        match pyFloat addStr with
        | Option.none => Except.error ExtractionError.badNumber
        | some av =>
          match pyFloat totStr with
          | Option.none => Except.error ExtractionError.badNumber
          | some tv =>
            match ini with
            | Option.none => processRows rest (some ⟨pa, av, tv⟩) fut
            | some i => processRows rest (some i) (fut ++ [⟨pa, av, tv⟩])
    | _ => processRows rest ini fut

/-- Record extraction from the located table (lines 117-139): drop the
header row (`rows[1:]`), then run the loop.  A table row is represented by
the list of its `td` cells' stripped text. -/
def extractRecords (rows : List (List String)) :
    Except ExtractionError LifeExpectancyResult :=
  processRows (rows.drop 1) Option.none []

/-- A `table` element as the parser sees it: its full rendered text
(`table.get_text()`) and its rows' cell texts (`tr`/`td` traversal). -/
structure HtmlTable : Type where
  text : String
  rows : List (List String)
deriving DecidableEq

/-- `needle` is a prefix of `hay` (character lists). -/
def startsWithChars : List Char → List Char → Bool
  | [], _ => true
  | _ :: _, [] => false
  | c :: cs, h :: hs => c = h && startsWithChars cs hs

/-- Python's `needle in hay` on strings: contiguous substring containment. -/
def containsChars (needle : List Char) : List Char → Bool
  | [] => needle.isEmpty
  | c :: hs => startsWithChars needle (c :: hs) || containsChars needle hs

/-- The marker phrase of line 109. -/
def markerPhrase : String := "At Age"

/-- Line 109: `"At Age" in table.get_text()`. -/
def containsAtAge (t : HtmlTable) : Bool :=
  containsChars markerPhrase.toList t.text.toList

/-- Lines 106-111: walk the tables in document order and keep the first
whose text contains the marker phrase (the loop `break`s at the first hit;
`results_table` stays `None` when nothing matches). -/
def locateResultsTable : List HtmlTable → Option HtmlTable
  | [] => Option.none
  | t :: ts => if containsAtAge t then some t else locateResultsTable ts

/-- Failures of the HTML-parsing stage: the `ValueError` of line 114 when
no table matches, or an extraction failure from the row loop. -/
inductive ParseError : Type
  | notFound : ParseError
  | extraction (e : ExtractionError) : ParseError
deriving DecidableEq

/-- Stages 3-4 of `scrape` (lines 101-139): locate the results table among
the document's tables, then extract the records from its rows. -/
def parsePage (tables : List HtmlTable) :
    Except ParseError LifeExpectancyResult :=
  match locateResultsTable tables with
  | Option.none => Except.error ParseError.notFound
  | some t => (extractRecords t.rows).mapError ParseError.extraction

/-- One Playwright interaction of the form-driving sequence. -/
inductive PwAction : Type
  | goto (url : String) : PwAction
  | waitForSelector (sel : String) : PwAction
  | selectOption (sel val : String) : PwAction
  | waitForTimeout (ms : Nat) : PwAction
  | click (sel : String) : PwAction
  | waitForLoadState (st : String) : PwAction
deriving DecidableEq

/-- The interaction sequence of lines 69-94, in source order, as driven for
the given (already stringified) form values. -/
def formDriverActions (sex month day year : String) : List PwAction :=
  [PwAction.goto "https://www.ssa.gov/cgi-bin/longevity.cgi",
   PwAction.waitForSelector "select[name=\"sex\"]",
   PwAction.selectOption "select[name=\"sex\"]" sex,
   PwAction.waitForSelector "select[name=\"monthofbirth\"]",
   PwAction.selectOption "select[name=\"monthofbirth\"]" month,
   PwAction.waitForTimeout 500,
   PwAction.waitForSelector "select[name=\"dayofbirth\"]",
   PwAction.selectOption "select[name=\"dayofbirth\"]" day,
   PwAction.waitForSelector "select[name=\"yearofbirth\"]",
   PwAction.selectOption "select[name=\"yearofbirth\"]" year,
   PwAction.click "input[type=\"submit\"][value=\"Submit\"]",
   PwAction.waitForLoadState "networkidle"]

/-- A JSON-derived Python value as the boundary code manipulates it:
`None` (missing key), a number, or a string. -/
inductive PyVal : Type
  | null : PyVal
  | int (n : Int) : PyVal
  | str (s : String) : PyVal
deriving DecidableEq

/-- Python `str()` on such a value: `str(None)` is the non-empty string
`"None"`. -/
def pyStr : PyVal → String
  | PyVal.null => "None"
  | PyVal.int n => toString n
  | PyVal.str s => s

/-- `dict.get(k)`: the stored value, or `None` when the key is absent. -/
def dictGet (d : List (String × PyVal)) (k : String) : PyVal :=
  match d.lookup k with
  | some v => v
  | Option.none => PyVal.null

/-- Outcome of the request boundary (lines 42-62), up to the point where
the scraping stage would start. -/
inductive BoundaryResult : Type
  | badRequest : BoundaryResult
  | uncaught : BoundaryResult
  | proceed (sex month day year : String) : BoundaryResult
deriving DecidableEq

/-- Lines 42-62 of `scrape`.  `Option.none` input models `req.get_json()`
raising `ValueError`, or a body that is not a dict (`.get` raising
`AttributeError`); both are caught and turned into HTTP 400.  Otherwise the
four fields are read with `.get` and stringified; the `if not all([...])`
check fires only when one of the strings is empty (Python string
truthiness).  `int(month_from_react)` at line 62 sits outside every
`try`, so its `ValueError` escapes `scrape` uncaught
(`BoundaryResult.uncaught`). -/
def requestBoundary (body : Option (List (String × PyVal))) : BoundaryResult :=
  match body with
  | Option.none => BoundaryResult.badRequest
  | some d =>
    let month := pyStr (dictGet d "month")
    let day := pyStr (dictGet d "day")
    let year := pyStr (dictGet d "year")
    let sex := pyStr (dictGet d "sex")
    if month = "" ∨ day = "" ∨ year = "" ∨ sex = "" then BoundaryResult.badRequest
    else
      match pyIntParse month with
      | Option.none => BoundaryResult.uncaught
      | some m => BoundaryResult.proceed sex (toString (m - 1)) day year

/-! ## Specification-side characterizations

These restate, in the spec's words, what a single row contributes; they are
compared against the source loop `processRows` in the theorems below. -/

/-- The record a row yields according to the spec: only rows with exactly
three cells are processed, the age cell goes through the normalizer, the
two life-expectancy cells through decimal parsing. -/
def rowPointSpec (row : List String) : Option LifeExpectancyPoint :=
  match row with
  | [ageStr, addStr, totStr] =>
    match parse_age_string ageStr, pyFloat addStr, pyFloat totStr with
    | some pa, some av, some tv => some ⟨pa, av, tv⟩
    | _, _, _ => Option.none
  | _ => Option.none

/-- A row aborts the extraction exactly when it is processed (three cells),
its age normalizes, and one of its life-expectancy cells does not parse. -/
def rowFails (row : List String) : Bool :=
  match row with
  | [ageStr, addStr, totStr] =>
    (parse_age_string ageStr).isSome &&
      ((pyFloat addStr).isNone || (pyFloat totStr).isNone)
  | _ => false

/-- The data-model invariant claimed in the spec for one point. -/
def pointInvariantSpec (p : LifeExpectancyPoint) : Prop :=
  0 ≤ p.atAge ∧ 0 ≤ p.additionalLE ∧ 0 ≤ p.totalLE

/-- The data-model invariant claimed in the spec for a whole result:
all fields non-negative and `atAge` strictly increasing across `future`. -/
def resultInvariantSpec (r : LifeExpectancyResult) : Prop :=
  pointInvariantSpec r.initial ∧ (∀ p ∈ r.future, pointInvariantSpec p) ∧
    List.Pairwise (fun p q => p.atAge < q.atAge) r.future

/-! ## Helper lemmas -/

lemma decimalToRat_nonneg (l : List Char) : 0 ≤ decimalToRat l := by
  unfold decimalToRat
  positivity

lemma parse_age_string_nonneg (s : String) (q : ℚ)
    (h : parse_age_string s = some q) : 0 ≤ q := by
  unfold parse_age_string at h
  rcases hN : numericTokens s with _ | ⟨a, _ | ⟨b, l⟩⟩
  · rw [hN] at h; exact absurd h (by simp)
  · rw [hN] at h
    simp only [Option.some.injEq] at h
    exact h ▸ decimalToRat_nonneg a
  · rcases l with _ | ⟨c, l'⟩
    · rw [hN] at h
      simp only [Option.some.injEq] at h
      have hb : (0:ℚ) ≤ decimalToRat b / 12 := by
        have := decimalToRat_nonneg b
        positivity
      exact h ▸ add_nonneg (decimalToRat_nonneg a) hb
    · rw [hN] at h; exact absurd h (by simp)

lemma processRows_ok_of_no_fail :
    ∀ (rows : List (List String)) (ini : Option LifeExpectancyPoint)
      (fut : List LifeExpectancyPoint),
      (∀ r ∈ rows, rowFails r = false) →
      processRows rows ini fut =
        match ini with
        | some i => Except.ok ⟨i, fut ++ rows.filterMap rowPointSpec⟩
        | Option.none =>
          match rows.filterMap rowPointSpec with
          | [] => Except.error ExtractionError.missingInitial
          | p :: ps => Except.ok ⟨p, fut ++ ps⟩
  | [], ini, fut, _ => by
    rcases ini with _ | i <;> simp [processRows]
  | row :: rest, ini, fut, h => by
    have hrest : ∀ r ∈ rest, rowFails r = false :=
      fun r hr => h r (by simp [hr])
    have hrow : rowFails row = false := h row (by simp)
    rcases row with _ | ⟨a, _ | ⟨b, _ | ⟨c, _ | ⟨d, row'⟩⟩⟩⟩
    · simpa [processRows, rowPointSpec] using
        processRows_ok_of_no_fail rest ini fut hrest
    · simpa [processRows, rowPointSpec] using
        processRows_ok_of_no_fail rest ini fut hrest
    · simpa [processRows, rowPointSpec] using
        processRows_ok_of_no_fail rest ini fut hrest
    · rcases hpa : parse_age_string a with _ | pa
      · simpa [processRows, rowPointSpec, hpa] using
          processRows_ok_of_no_fail rest ini fut hrest
      · rcases hav : pyFloat b with _ | av
        · exact absurd hrow (by simp [rowFails, hpa, hav])
        · rcases htv : pyFloat c with _ | tv
          · exact absurd hrow (by simp [rowFails, hpa, hav, htv])
          · rcases ini with _ | i
            · have ih := processRows_ok_of_no_fail rest (some ⟨pa, av, tv⟩) fut hrest
              simpa [processRows, rowPointSpec, hpa, hav, htv] using ih
            · have ih :=
                processRows_ok_of_no_fail rest (some i) (fut ++ [⟨pa, av, tv⟩]) hrest
              simpa [processRows, rowPointSpec, hpa, hav, htv] using ih
    · simpa [processRows, rowPointSpec] using
        processRows_ok_of_no_fail rest ini fut hrest

lemma processRows_atAge_nonneg :
    ∀ (rows : List (List String)) (ini : Option LifeExpectancyPoint)
      (fut : List LifeExpectancyPoint) (r : LifeExpectancyResult),
      (∀ i, ini = some i → 0 ≤ i.atAge) →
      (∀ p ∈ fut, 0 ≤ p.atAge) →
      processRows rows ini fut = Except.ok r →
      0 ≤ r.initial.atAge ∧ ∀ p ∈ r.future, 0 ≤ p.atAge
  | [], ini, fut, r, hini, hfut, h => by
    rcases ini with _ | i
    · exact absurd h (by simp [processRows])
    · simp only [processRows, Except.ok.injEq] at h
      subst h
      exact ⟨hini i rfl, hfut⟩
  | row :: rest, ini, fut, r, hini, hfut, h => by
    rcases row with _ | ⟨a, _ | ⟨b, _ | ⟨c, _ | ⟨d, row'⟩⟩⟩⟩
    · exact processRows_atAge_nonneg rest ini fut r hini hfut (by simpa [processRows] using h)
    · exact processRows_atAge_nonneg rest ini fut r hini hfut (by simpa [processRows] using h)
    · exact processRows_atAge_nonneg rest ini fut r hini hfut (by simpa [processRows] using h)
    · rcases hpa : parse_age_string a with _ | pa
      · exact processRows_atAge_nonneg rest ini fut r hini hfut
          (by simpa [processRows, hpa] using h)
      · rcases hav : pyFloat b with _ | av
        · exact absurd h (by simp [processRows, hpa, hav])
        · rcases htv : pyFloat c with _ | tv
          · exact absurd h (by simp [processRows, hpa, hav, htv])
          · have hpa0 : (0:ℚ) ≤ pa := parse_age_string_nonneg a pa hpa
            rcases ini with _ | i
            · exact processRows_atAge_nonneg rest (some ⟨pa, av, tv⟩) fut r
                (by
                  intro i hi
                  simp only [Option.some.injEq] at hi
                  rw [← hi]
                  exact hpa0) hfut
                (by simpa [processRows, hpa, hav, htv] using h)
            · exact processRows_atAge_nonneg rest (some i)
                (fut ++ [⟨pa, av, tv⟩]) r hini
                (by
                  intro p hp
                  rcases List.mem_append.mp hp with hp | hp
                  · exact hfut p hp
                  · simp only [List.mem_singleton] at hp
                    subst hp
                    exact hpa0)
                (by simpa [processRows, hpa, hav, htv] using h)
    · exact processRows_atAge_nonneg rest ini fut r hini hfut (by simpa [processRows] using h)

lemma locateResultsTable_eq_none :
    ∀ (tables : List HtmlTable), (∀ t ∈ tables, containsAtAge t = false) →
      locateResultsTable tables = Option.none
  | [], _ => rfl
  | u :: us, h => by
    simp only [locateResultsTable, h u (by simp), Bool.false_eq_true, if_false]
    exact locateResultsTable_eq_none us (fun v hv => h v (by simp [hv]))

/-! ## Claim theorems -/

/-- C1: for every input string, when `parse_age_string` finds exactly one
numeric substring it returns that substring's decimal value (whole years),
and when it finds exactly two it returns `first + second / 12`. -/
theorem parse_age_token_cases (s : String) :
    (∀ a, numericTokens s = [a] →
      parse_age_string s = some (decimalToRat a)) ∧
    (∀ a b, numericTokens s = [a, b] →
      parse_age_string s = some (decimalToRat a + decimalToRat b / 12)) := by
  constructor
  · intro a h
    unfold parse_age_string
    rw [h]
  · intro a b h
    unfold parse_age_string
    rw [h]

/-- Witness for C1 at "62a and 4 months": two numeric substrings, result
62 + 4/12. -/
theorem parse_age_token_cases_witness :
    numericTokens "62a and 4 months" = [['6', '2'], ['4']] ∧
    parse_age_string "62a and 4 months" =
      some (decimalToRat ['6', '2'] + decimalToRat ['4'] / 12) :=
  ⟨by decide, (parse_age_token_cases "62a and 4 months").2 ['6', '2'] ['4'] (by decide)⟩

/-- C6: `parse_age_string` returns the failure outcome `Option.none`
exactly when it finds zero or more than two numeric substrings; it is a
total function, so no input escapes this some/none classification (the
"never raises" half of the claim). -/
theorem parse_age_failure_classification (s : String) :
    parse_age_string s = Option.none ↔
      ((numericTokens s).length = 0 ∨ 2 < (numericTokens s).length) := by
  unfold parse_age_string
  rcases numericTokens s with _ | ⟨a, _ | ⟨b, _ | ⟨c, l⟩⟩⟩ <;> simp

/-- C10: whenever `parse_age_string` succeeds, the value is non-negative:
only unsigned decimal substrings are extracted, and both result formulas
are sums of non-negative terms. -/
theorem parse_age_result_nonneg (s : String) (q : ℚ)
    (h : parse_age_string s = some q) : 0 ≤ q :=
  parse_age_string_nonneg s q h

/-- Witness for C10 at "70b": the parse succeeds and the value is
non-negative. -/
theorem parse_age_result_nonneg_witness :
    parse_age_string "70b" = some (decimalToRat ['7', '0']) ∧
    (0:ℚ) ≤ decimalToRat ['7', '0'] :=
  ⟨rfl, parse_age_result_nonneg "70b" (decimalToRat ['7', '0']) rfl⟩

/-- C3: in the extraction loop, a three-cell row whose age cell fails to
normalize is skipped (the loop continues on the remaining rows with the
same state), while a three-cell row whose age normalizes but whose
additional- or total-life-expectancy cell fails decimal parsing aborts the
whole extraction with the bad-number `ExtractionError`. -/
theorem processRows_error_policy (ageStr addStr totStr : String)
    (rest : List (List String)) (ini : Option LifeExpectancyPoint)
    (fut : List LifeExpectancyPoint) :
    (parse_age_string ageStr = Option.none →
      processRows ([ageStr, addStr, totStr] :: rest) ini fut =
        processRows rest ini fut) ∧
    (∀ v, parse_age_string ageStr = some v →
      (pyFloat addStr = Option.none ∨ pyFloat totStr = Option.none) →
      processRows ([ageStr, addStr, totStr] :: rest) ini fut =
        Except.error ExtractionError.badNumber) := by
  constructor
  · intro h
    simp [processRows, h]
  · rintro v hv (h | h)
    · simp [processRows, hv, h]
    · rcases hA : pyFloat addStr with _ | av
      · simp [processRows, hv, hA]
      · simp [processRows, hv, hA, h]

/-- Witness for C3 at a row whose age parses but whose additional-LE cell
does not: the loop aborts with the bad-number error. -/
theorem processRows_error_policy_witness :
    processRows [["62", "abc", "80"]] Option.none [] =
      Except.error ExtractionError.badNumber :=
  (processRows_error_policy "62" "abc" "80" [] Option.none []).2
    (decimalToRat ['6', '2']) rfl (Or.inl rfl)

/-- C4: the table locator scans the tables in document order and selects
the first whose full text contains the marker phrase "At Age". -/
theorem locateResultsTable_first_match (pre : List HtmlTable) (t : HtmlTable)
    (post : List HtmlTable) (hpre : ∀ u ∈ pre, containsAtAge u = false)
    (ht : containsAtAge t = true) :
    locateResultsTable (pre ++ t :: post) = some t := by
  induction pre with
  | nil => simp [locateResultsTable, ht]
  | cons u us ih =>
    have hu : containsAtAge u = false := hpre u (by simp)
    simp only [List.cons_append, locateResultsTable, hu, Bool.false_eq_true, if_false]
    exact ih (fun v hv => hpre v (by simp [hv]))

/-- Witness for C4: three tables of which only the second contains the
marker; exactly the second is selected. -/
theorem locateResultsTable_first_match_witness :
    locateResultsTable
        [⟨"sidebar links", []⟩, ⟨"Life table: At Age 62", []⟩,
         ⟨"page footer", []⟩] =
      some ⟨"Life table: At Age 62", []⟩ :=
  locateResultsTable_first_match [⟨"sidebar links", []⟩]
    ⟨"Life table: At Age 62", []⟩ [⟨"page footer", []⟩] (by decide) (by decide)

/-- C5: when no table's text contains the marker phrase, the locator
returns nothing and the parsing stage fails with the distinct `notFound`
error, not an empty or default result. -/
theorem locateResultsTable_no_match (tables : List HtmlTable)
    (h : ∀ t ∈ tables, containsAtAge t = false) :
    locateResultsTable tables = Option.none ∧
    parsePage tables = Except.error ParseError.notFound := by
  have hl := locateResultsTable_eq_none tables h
  exact ⟨hl, by simp [parsePage, hl]⟩

/-- Witness for C5 on a two-table document without the marker. -/
theorem locateResultsTable_no_match_witness :
    locateResultsTable [⟨"top navigation", []⟩, ⟨"about us", []⟩] =
        Option.none ∧
    parsePage [⟨"top navigation", []⟩, ⟨"about us", []⟩] =
        Except.error ParseError.notFound :=
  locateResultsTable_no_match [⟨"top navigation", []⟩, ⟨"about us", []⟩]
    (by decide)

/-- C9 (code-bug evidence): a well-formed JSON body missing the `month`
field passes the boundary's truthiness validation (because `str(None)` is
the non-empty string "None") and reaches `int("None")` outside every
`try`, escaping uncaught instead of producing the HTTP 400 response; a
malformed body, by contrast, is caught and mapped to 400. -/
theorem requestBoundary_missing_month_uncaught :
    requestBoundary (some [("day", PyVal.int 15), ("year", PyVal.int 1960),
        ("sex", PyVal.str "f")]) = BoundaryResult.uncaught ∧
    requestBoundary Option.none = BoundaryResult.badRequest ∧
    BoundaryResult.uncaught ≠ BoundaryResult.badRequest := by
  refine ⟨by decide, rfl, by decide⟩

/-- Unfolding of the request boundary at a four-field body, used to reason
about it with a symbolic month value. -/
lemma requestBoundary_fields (mv dv yv sv : PyVal) :
    requestBoundary (some [("month", mv), ("day", dv), ("year", yv),
        ("sex", sv)]) =
      if pyStr mv = "" ∨ pyStr dv = "" ∨ pyStr yv = "" ∨ pyStr sv = ""
      then BoundaryResult.badRequest
      else
        match pyIntParse (pyStr mv) with
        | Option.none => BoundaryResult.uncaught
        | some mi =>
          BoundaryResult.proceed (pyStr sv) (toString (mi - 1)) (pyStr dv)
            (pyStr yv) := rfl

/-- Python `int(str(m)) = m` for the twelve month numbers. -/
lemma pyIntParse_toString_month (m : Int) (h1 : 1 ≤ m) (h2 : m ≤ 12) :
    pyIntParse (toString m) = some m := by
  interval_cases m <;> decide

/-- `str(m)` is never the empty string for the twelve month numbers. -/
lemma toString_month_ne_empty (m : Int) (h1 : 1 ≤ m) (h2 : m ≤ 12) :
    toString m ≠ "" := by
  interval_cases m <;> decide

/-- C2: the extractor skips the header row and processes only rows with
exactly three cells; as long as no processed row aborts on a bad
life-expectancy number, the first successfully parsed row becomes
`initial`, every later parsed row is appended in row order to `future`,
and if zero rows parse the extraction fails with the missing-initial
error rather than returning a default. -/
theorem extractRecords_classification (rows : List (List String))
    (h : ∀ r ∈ rows.drop 1, rowFails r = false) :
    extractRecords rows =
      match (rows.drop 1).filterMap rowPointSpec with
      | [] => Except.error ExtractionError.missingInitial
      | p :: ps => Except.ok ⟨p, ps⟩ := by
  have h0 := processRows_ok_of_no_fail (rows.drop 1) Option.none [] h
  unfold extractRecords
  rw [h0]
  rcases (rows.drop 1).filterMap rowPointSpec with _ | ⟨p, ps⟩
  · rfl
  · simp

/-- A concrete scraped table for the C2 witness: a header row, a plain
row, a one-cell divider row (skipped), and a compound-age row. -/
def sampleRows : List (List String) :=
  [["At Age", "Additional", "Total"],
   ["58", "25.5", "83.5"],
   ["oops"],
   ["59 and 6 months", "24.7", "84.2"]]

/-- Witness for C2 on `sampleRows`: `initial` is the first parsed row,
`future` holds the later parsed row, the divider row is skipped. -/
theorem extractRecords_classification_witness :
    extractRecords sampleRows =
      Except.ok ⟨⟨58, 51 / 2, 167 / 2⟩, [⟨119 / 2, 247 / 10, 421 / 5⟩]⟩ := by
  have h := extractRecords_classification sampleRows (by decide)
  refine h.trans ?_
  have e : (sampleRows.drop 1).filterMap rowPointSpec =
      [⟨((58:ℕ):ℚ) + ((0:ℕ):ℚ) / (10:ℚ) ^ (0:ℕ),
        (1:ℚ) * (((25:ℕ):ℚ) + ((5:ℕ):ℚ) / (10:ℚ) ^ (1:ℕ)),
        (1:ℚ) * (((83:ℕ):ℚ) + ((5:ℕ):ℚ) / (10:ℚ) ^ (1:ℕ))⟩,
       ⟨(((59:ℕ):ℚ) + ((0:ℕ):ℚ) / (10:ℚ) ^ (0:ℕ)) +
          (((6:ℕ):ℚ) + ((0:ℕ):ℚ) / (10:ℚ) ^ (0:ℕ)) / 12,
        (1:ℚ) * (((24:ℕ):ℚ) + ((7:ℕ):ℚ) / (10:ℚ) ^ (1:ℕ)),
        (1:ℚ) * (((84:ℕ):ℚ) + ((2:ℕ):ℚ) / (10:ℚ) ^ (1:ℕ))⟩] := rfl
  rw [e]
  norm_num

/-- C7: for a profile whose 1-based month is `m`, the boundary stringifies
the field, re-parses it, subtracts 1, and the form driver issues a
`select_option` on the 0-based remote month control with value `m - 1`. -/
theorem scrape_month_translation (m : Int) (d y s : String)
    (hm1 : 1 ≤ m) (hm2 : m ≤ 12) (hd : d ≠ "") (hy : y ≠ "") (hs : s ≠ "") :
    requestBoundary (some [("month", PyVal.int m), ("day", PyVal.str d),
        ("year", PyVal.str y), ("sex", PyVal.str s)]) =
      BoundaryResult.proceed s (toString (m - 1)) d y ∧
    PwAction.selectOption "select[name=\"monthofbirth\"]" (toString (m - 1)) ∈
      formDriverActions s (toString (m - 1)) d y := by
  refine ⟨?_, by simp [formDriverActions]⟩
  have hne : ¬(toString m = "" ∨ d = "" ∨ y = "" ∨ s = "") := by
    rintro (h | h | h | h)
    · exact toString_month_ne_empty m hm1 hm2 h
    · exact hd h
    · exact hy h
    · exact hs h
  rw [requestBoundary_fields]
  simp only [pyStr]
  rw [if_neg hne, pyIntParse_toString_month m hm1 hm2]

/-- Witness for C7: month 3 drives a selection of "2" on the month
control. -/
theorem scrape_month_translation_witness :
    requestBoundary (some [("month", PyVal.int 3), ("day", PyVal.str "15"),
        ("year", PyVal.str "1960"), ("sex", PyVal.str "f")]) =
      BoundaryResult.proceed "f" "2" "15" "1960" ∧
    PwAction.selectOption "select[name=\"monthofbirth\"]" "2" ∈
      formDriverActions "f" "2" "15" "1960" := by
  have h := scrape_month_translation 3 "15" "1960" "f" (by norm_num)
    (by norm_num) (by decide) (by decide) (by decide)
  have e : toString ((3:Int) - 1) = "2" := by decide
  rw [e] at h
  exact h

/-- C8 (amended): every point a successful extraction produces has a
non-negative `atAge`, because ages come from `parse_age_string`; the two
life-expectancy fields and the ordering of `atAge` across `future` are
copied from the table unchecked (see the counterexample). -/
theorem extractRecords_atAge_nonneg (rows : List (List String))
    (r : LifeExpectancyResult) (h : extractRecords rows = Except.ok r) :
    0 ≤ r.initial.atAge ∧ ∀ p ∈ r.future, 0 ≤ p.atAge := by
  unfold extractRecords at h
  exact processRows_atAge_nonneg (rows.drop 1) Option.none [] r
    (by simp) (by simp) h

/-- Witness for C8's amended claim on a small successful extraction. -/
theorem extractRecords_atAge_nonneg_witness :
    extractRecords [["h"], ["1", "2", "3"]] =
      Except.ok ⟨⟨decimalToRat ['1'],
        (1:ℚ) * (((2:ℕ):ℚ) + ((0:ℕ):ℚ) / (10:ℚ) ^ (0:ℕ)),
        (1:ℚ) * (((3:ℕ):ℚ) + ((0:ℕ):ℚ) / (10:ℚ) ^ (0:ℕ))⟩, []⟩ ∧
    (0:ℚ) ≤ decimalToRat ['1'] := by
  refine ⟨rfl, ?_⟩
  exact (extractRecords_atAge_nonneg [["h"], ["1", "2", "3"]] _ rfl).1

/-- A table the extractor accepts although it violates the claimed
invariant: a negative additional-LE cell and decreasing ages. -/
def nonMonotonicRows : List (List String) :=
  [["h"], ["5", "-1", "6"], ["3", "2", "4"], ["2", "1", "3"]]

/-- The result the extractor produces on `nonMonotonicRows`. -/
def nonMonotonicResult : LifeExpectancyResult :=
  ⟨⟨decimalToRat ['5'],
    (-1:ℚ) * (((1:ℕ):ℚ) + ((0:ℕ):ℚ) / (10:ℚ) ^ (0:ℕ)),
    (1:ℚ) * (((6:ℕ):ℚ) + ((0:ℕ):ℚ) / (10:ℚ) ^ (0:ℕ))⟩,
   [⟨decimalToRat ['3'],
     (1:ℚ) * (((2:ℕ):ℚ) + ((0:ℕ):ℚ) / (10:ℚ) ^ (0:ℕ)),
     (1:ℚ) * (((4:ℕ):ℚ) + ((0:ℕ):ℚ) / (10:ℚ) ^ (0:ℕ))⟩,
    ⟨decimalToRat ['2'],
     (1:ℚ) * (((1:ℕ):ℚ) + ((0:ℕ):ℚ) / (10:ℚ) ^ (0:ℕ)),
     (1:ℚ) * (((3:ℕ):ℚ) + ((0:ℕ):ℚ) / (10:ℚ) ^ (0:ℕ))⟩]⟩

/-- Counterexample to C8 as stated: this extraction succeeds, yet the
produced result has a negative `additionalLE` on `initial` and `atAge`
is not strictly increasing across `future`. -/
theorem extract_invariant_counterexample :
    extractRecords nonMonotonicRows = Except.ok nonMonotonicResult ∧
    ¬ (0 ≤ nonMonotonicResult.initial.additionalLE) ∧
    ¬ List.Pairwise (fun p q => p.atAge < q.atAge) nonMonotonicResult.future ∧
    ¬ resultInvariantSpec nonMonotonicResult := by
  have hadd : nonMonotonicResult.initial.additionalLE =
      (-1:ℚ) * (((1:ℕ):ℚ) + ((0:ℕ):ℚ) / (10:ℚ) ^ (0:ℕ)) := rfl
  have hneg : ¬ (0 ≤ nonMonotonicResult.initial.additionalLE) := by
    rw [hadd]
    norm_num
  refine ⟨rfl, hneg, ?_, fun hinv => hneg hinv.1.2.1⟩
  intro hp
  simp only [nonMonotonicResult, List.pairwise_cons] at hp
  have h2 : decimalToRat ['3'] < decimalToRat ['2'] :=
    hp.1 _ (List.mem_singleton_self _)
  have e3 : decimalToRat ['3'] = ((3:ℕ):ℚ) + ((0:ℕ):ℚ) / (10:ℚ) ^ (0:ℕ) := rfl
  have e2 : decimalToRat ['2'] = ((2:ℕ):ℚ) + ((0:ℕ):ℚ) / (10:ℚ) ^ (0:ℕ) := rfl
  rw [e3, e2] at h2
  norm_num at h2

end SsaScraper
